import Mathlib

/-!
Shallow embedding of the restaurant management backend (src/resturant/server.js).
Entities are records in lists held by a DB value; MongoDB ids are modelled as
Nat tokens, JS Number fields as Int, dates as opaque Nat values, and each route
handler as a function from the DB (plus request data and a clock value) to a
result together with the DB it leaves behind.  Error responses are modelled by
the Err type: notFound is an HTTP 404, badRequest an HTTP 400 (the code uses
400 both for validation failures and for conflicts), internal an HTTP 500.
Mongoose document saves validate the schema status enums, so a save with a
status outside the enum raises a ValidationError, which the handlers surface
as a 500; this is modelled at each save of an Order or Reservation document.
-/

namespace Restaurant

/-- MenuItem schema (server.js lines 28-62). -/
structure MenuItem where
  id : Nat
  name : String
  description : Option String
  price : Int
  category : String
  isAvailable : Bool
  imageUrl : Option String
deriving Repr, DecidableEq

/-- Table schema (server.js lines 65-84). -/
structure Table where
  id : Nat
  tableNumber : Nat
  capacity : Nat
  isAvailable : Bool
deriving Repr, DecidableEq

/-- One line item of an order (server.js lines 93-109). -/
structure OrderLineItem where
  menuItem : Nat
  quantity : Int
  priceAtOrder : Int
deriving Repr, DecidableEq

/-- Order schema (server.js lines 87-131). -/
structure Order where
  id : Nat
  table : Nat
  items : List OrderLineItem
  totalAmount : Int
  status : String
  orderTime : Nat
  completionTime : Option Nat
deriving Repr, DecidableEq

/-- Reservation schema (server.js lines 134-176). -/
structure Reservation where
  id : Nat
  customerName : String
  phoneNumber : String
  table : Option Nat
  date : Nat
  time : String
  numberOfGuests : Nat
  status : String
  notes : Option String
deriving Repr, DecidableEq

/-- Inventory schema (server.js lines 179-209). -/
structure InventoryItem where
  id : Nat
  itemName : String
  quantity : Int
  unit : String
  minStockLevel : Int
  lastUpdated : Nat
deriving Repr, DecidableEq

/-- The persistent state: one collection per entity type. -/
structure DB where
  menuItems : List MenuItem
  tables : List Table
  orders : List Order
  reservations : List Reservation
  inventory : List InventoryItem
deriving Repr, DecidableEq

/-- Error responses: 404, 400 (validation and conflict), 500. -/
inductive Err where
  | notFound (msg : String)
  | badRequest (msg : String)
  | internal
deriving Repr, DecidableEq

deriving instance DecidableEq for Except

/-- True exactly on a successful result. -/
def isOk : Except Err α → Bool
  | Except.ok _ => true
  | Except.error _ => false

/-- True exactly on an HTTP 400 response. -/
def isBadRequest : Except Err α → Bool
  | Except.error (Err.badRequest _) => true
  | _ => false

/-- Replace the first element satisfying p (a Mongoose save of a document that
was fetched with findOne or findById mutates that one document in place). -/
def updateFirst (p : α → Bool) (f : α → α) : List α → List α
  | [] => []
  | a :: as => if p a then f a :: as else a :: updateFirst p f as

/-- Valid Order statuses (the enum of OrderSchema.status, lines 115-120). -/
def orderStatusEnum : List String := ["pending", "preparing", "completed", "cancelled"]

/-- Valid Reservation statuses (the enum of ReservationSchema.status, lines 163-168). -/
def reservationStatusEnum : List String := ["pending", "confirmed", "cancelled", "completed"]

/-! ## Inventory adjuster (updateInventoryForOrder, lines 214-243) -/

/-- One quantity step: subtract or add the delta, then clamp a negative result
to zero (lines 225-234). -/
def adjustQuantity (q d : Int) (isDecrement : Bool) : Int :=
  let q1 := if isDecrement then q - d else q + d
  if q1 < 0 then 0 else q1

/-- Process one order item against the inventory collection: findOne by item
name, skip when absent, otherwise adjust the quantity with clamping, stamp
lastUpdated and save (lines 215-241; the low stock alert is a log line with no
state effect). -/
def applyInventoryItem (inv : List InventoryItem) (it : String × Int)
    (isDecrement : Bool) (now : Nat) : List InventoryItem :=
  updateFirst (fun r => r.itemName == it.1)
    (fun r => { r with quantity := adjustQuantity r.quantity it.2 isDecrement,
                       lastUpdated := now }) inv

/-- updateInventoryForOrder: iterate the order items in order over the
inventory collection (lines 214-243). -/
def updateInventoryForOrder (orderItems : List (String × Int)) (isDecrement : Bool)
    (now : Nat) (inv : List InventoryItem) : List InventoryItem :=
  orderItems.foldl (fun acc it => applyInventoryItem acc it isDecrement now) inv

/-! ## Order engine (POST /api/orders, lines 490-542; PUT /api/orders/:id/status, lines 588-619) -/

/-- One requested item of the POST /api/orders body. -/
structure OrderReqItem where
  menuItemId : Nat
  quantity : Int
deriving Repr, DecidableEq

/-- The per-item loop of POST /api/orders (lines 505-524): resolve each menu
item (404 when absent), reject unavailable items (400) and non-positive
quantities (400), and accumulate the line items, the total amount and the
(name, quantity) list handed to the inventory adjuster. -/
def buildOrderItems (menu : List MenuItem) :
    List OrderReqItem → Except Err (List OrderLineItem × Int × List (String × Int))
  | [] => Except.ok ([], 0, [])
  | it :: rest =>
    match menu.find? (fun m => m.id == it.menuItemId) with
    | none => Except.error (Err.notFound
        ("Menu item with ID " ++ toString it.menuItemId ++ " not found."))
    | some m =>
      if !m.isAvailable then
        Except.error (Err.badRequest (m.name ++ " is currently not available."))
      else if it.quantity ≤ 0 then
        Except.error (Err.badRequest ("Quantity for " ++ m.name ++ " must be at least 1."))
      else
        match buildOrderItems menu rest with
        | Except.error e => Except.error e
        | Except.ok (ois, total, names) =>
          Except.ok ({ menuItem := m.id, quantity := it.quantity, priceAtOrder := m.price } :: ois,
                     m.price * it.quantity + total,
                     (m.name, it.quantity) :: names)

/-- POST /api/orders (lines 490-542): validate the body, resolve the table,
run the per-item loop, save the new pending order, then decrement inventory.
The saved document has the literal status pending, which is in the schema
enum, so its save always passes validation. -/
def placeOrder (db : DB) (tableId : Option Nat) (items : List OrderReqItem)
    (now nid : Nat) : Except Err Order × DB :=
  match tableId with
  | none => (Except.error (Err.badRequest "Please provide tableId and at least one item."), db)
  | some tid =>
    if items.isEmpty then
      (Except.error (Err.badRequest "Please provide tableId and at least one item."), db)
    else
      match db.tables.find? (fun t => t.id == tid) with
      | none => (Except.error (Err.notFound "Table not found"), db)
      | some _ =>
        match buildOrderItems db.menuItems items with
        | Except.error e => (Except.error e, db)
        | Except.ok (ois, total, names) =>
          let newOrder : Order :=
            { id := nid, table := tid, items := ois, totalAmount := total,
              status := "pending", orderTime := now, completionTime := none }
          let db1 := { db with orders := db.orders ++ [newOrder] }
          (Except.ok newOrder,
           { db1 with inventory := updateInventoryForOrder names true now db1.inventory })

/-- The cancel path of PUT /api/orders/:id/status (lines 604-607): resolve each
line item back to a (name, quantity) pair, with missing menu items reported as
Unknown Item. -/
def restockList (menu : List MenuItem) (items : List OrderLineItem) : List (String × Int) :=
  items.map (fun it =>
    match menu.find? (fun m => m.id == it.menuItem) with
    | some m => (m.name, it.quantity)
    | none => ("Unknown Item", it.quantity))

/-- PUT /api/orders/:id/status (lines 588-619): require a truthy status, fetch
the order, stamp completionTime on a transition into completed, restock
inventory on a transition into cancelled, then save the order.  The inventory
saves of the restock happen before the order save, so they persist even when
the order save then fails schema validation (a status outside the enum). -/
def updateOrderStatus (db : DB) (oid : Nat) (status : Option String) (now : Nat) :
    Except Err Order × DB :=
  match status with
  | none => (Except.error (Err.badRequest "Please provide a new status for the order."), db)
  | some s =>
    if s == "" then
      (Except.error (Err.badRequest "Please provide a new status for the order."), db)
    else
      match db.orders.find? (fun o => o.id == oid) with
      | none => (Except.error (Err.notFound "Order not found"), db)
      | some o =>
        let oldStatus := o.status
        let o1 := { o with status := s }
        let o2 := if s == "completed" && !(oldStatus == "completed") then
                    { o1 with completionTime := some now }
                  else o1
        let inv1 := if s == "cancelled" && !(oldStatus == "cancelled") then
                      updateInventoryForOrder (restockList db.menuItems o.items) false now
                        db.inventory
                    else db.inventory
        if orderStatusEnum.contains s then
          (Except.ok o2,
           { db with orders := updateFirst (fun x => x.id == oid) (fun _ => o2) db.orders,
                     inventory := inv1 })
        else
          (Except.error Err.internal, { db with inventory := inv1 })

/-! ## Menu update (PUT /api/menu/:id, lines 307-337) -/

/-- Body of PUT /api/menu/:id. -/
structure MenuUpdateReq where
  name : Option String
  description : Option String
  price : Option Int
  category : Option String
  isAvailable : Option Bool
  imageUrl : Option String
deriving Repr, DecidableEq

/-- JS truthiness of an optional string (absent and empty are falsy). -/
def truthyStr : Option String → Bool
  | none => false
  | some s => !(s == "")

/-- The menuItemFields object (lines 309-315): a field is included only when
the supplied value is truthy, except isAvailable which only needs to be
defined. -/
def applyMenuFields (req : MenuUpdateReq) (m : MenuItem) : MenuItem :=
  { m with
    name := match req.name with
            | some n => if n == "" then m.name else n
            | none => m.name,
    description := match req.description with
                   | some d => if d == "" then m.description else some d
                   | none => m.description,
    price := match req.price with
             | some p => if p == 0 then m.price else p
             | none => m.price,
    category := match req.category with
                | some c => if c == "" then m.category else c
                | none => m.category,
    isAvailable := match req.isAvailable with
                   | some b => b
                   | none => m.isAvailable,
    imageUrl := match req.imageUrl with
                | some u => if u == "" then m.imageUrl else some u
                | none => m.imageUrl }

/-- PUT /api/menu/:id (lines 307-337): fetch the item, re-check name
uniqueness against the other records when the name changes, then
findByIdAndUpdate with the collected fields. -/
def updateMenuItem (db : DB) (mid : Nat) (req : MenuUpdateReq) : Except Err MenuItem × DB :=
  match db.menuItems.find? (fun m => m.id == mid) with
  | none => (Except.error (Err.notFound "Menu item not found"), db)
  | some m =>
    let nameClash : Bool :=
      match req.name with
      | some n =>
        if n == "" then false
        else if n == m.name then false
        else
          match db.menuItems.find? (fun x => x.name == n) with
          | some other => !(other.id == mid)
          | none => false
      | none => false
    if nameClash then
      (Except.error (Err.badRequest "Menu item with this name already exists"), db)
    else
      let m1 := applyMenuFields req m
      (Except.ok m1,
       { db with menuItems := updateFirst (fun x => x.id == mid) (fun _ => m1) db.menuItems })

/-! ## Reservation engine (POST /api/reservations, lines 644-713;
PUT /api/reservations/:id/status, lines 768-800;
DELETE /api/reservations/:id, lines 805-826) -/

/-- Body of POST /api/reservations. -/
structure ReservationReq where
  customerName : Option String
  phoneNumber : Option String
  date : Option Nat
  time : Option String
  numberOfGuests : Option Nat
  tableId : Option Nat
  notes : Option String
deriving Repr, DecidableEq

/-- The double-booking query (lines 662-667 and 680-685): an existing
reservation for the same table, date and time whose status is pending or
confirmed. -/
def conflictExists (rs : List Reservation) (tid : Nat) (d : Nat) (tm : String) : Bool :=
  rs.any (fun r => r.table == some tid && r.date == d && r.time == tm &&
    (r.status == "pending" || r.status == "confirmed"))

/-- Insert a table into a list sorted ascending by capacity. -/
def insertByCapacity (t : Table) : List Table → List Table
  | [] => [t]
  | a :: as => if t.capacity ≤ a.capacity then t :: a :: as else a :: insertByCapacity t as

/-- Sort tables ascending by capacity, modelling the sort by capacity of the
availableTables query (line 675). -/
def sortByCapacity : List Table → List Table
  | [] => []
  | a :: as => insertByCapacity a (sortByCapacity as)

/-- The availableTables query of the auto-assign path (lines 672-675):
available tables with sufficient capacity, ascending by capacity. -/
def candidateTables (db : DB) (g : Nat) : List Table :=
  sortByCapacity (db.tables.filter (fun t => t.isAvailable && g ≤ t.capacity))

/-- The scan of lines 679-690: the first candidate table with no conflicting
active reservation at the requested date and time. -/
def assignedTable (db : DB) (g d : Nat) (tm : String) : Option Table :=
  (candidateTables db g).find? (fun t => !(conflictExists db.reservations t.id d tm))

/-- POST /api/reservations (lines 644-713): require the five mandatory fields
(JS truthiness), then either validate the explicitly requested table
(existence, availability, capacity, no double booking) or auto-assign the
first conflict-free candidate table, and save a new pending reservation.
The saved document carries the schema default status pending, which is in
the schema enum, so its save always passes validation. -/
def createReservation (db : DB) (req : ReservationReq) (nid : Nat) : Except Err Reservation × DB :=
  match req.customerName, req.phoneNumber, req.date, req.time, req.numberOfGuests with
  | some cn, some pn, some d, some tm, some g =>
    if cn == "" || pn == "" || d == 0 || tm == "" || g == 0 then
      (Except.error (Err.badRequest "Please fill all required fields: customerName, phoneNumber, date, time, numberOfGuests."), db)
    else
      let mkSaved (t : Table) : Except Err Reservation × DB :=
        let newReservation : Reservation :=
          { id := nid, customerName := cn, phoneNumber := pn, table := some t.id,
            date := d, time := tm, numberOfGuests := g, status := "pending",
            notes := req.notes }
        (Except.ok newReservation,
         { db with reservations := db.reservations ++ [newReservation] })
      match req.tableId with
      | some tid =>
        match db.tables.find? (fun t => t.id == tid) with
        | none => (Except.error (Err.notFound "Specified table not found."), db)
        | some t =>
          if !t.isAvailable then
            (Except.error (Err.badRequest
              ("Table " ++ toString t.tableNumber ++ " is currently not available.")), db)
          else if t.capacity < g then
            (Except.error (Err.badRequest
              ("Table " ++ toString t.tableNumber ++ " cannot accommodate " ++ toString g
                ++ " guests (capacity: " ++ toString t.capacity ++ ").")), db)
          else if conflictExists db.reservations tid d tm then
            (Except.error (Err.badRequest
              ("Table " ++ toString t.tableNumber ++ " is already reserved for " ++ tm
                ++ " on " ++ toString d ++ ".")), db)
          else mkSaved t
      | none =>
        if (candidateTables db g).isEmpty then
          (Except.error (Err.badRequest
            "No available tables found for the requested number of guests."), db)
        else
          match assignedTable db g d tm with
          | none => (Except.error (Err.badRequest
              "No suitable table found for reservation at this time."), db)
          | some t => mkSaved t
  | _, _, _, _, _ =>
    (Except.error (Err.badRequest "Please fill all required fields: customerName, phoneNumber, date, time, numberOfGuests."), db)

/-- The table synchronization block of PUT /api/reservations/:id/status
(lines 783-787): a transition into confirmed (from non-confirmed) marks the
table unavailable; a transition into cancelled or completed (from a state
that was neither) marks it available; any other transition leaves it as is. -/
def reservationTableSync (s oldStatus : String) (t : Table) : Table :=
  if s == "confirmed" && !(oldStatus == "confirmed") then
    { t with isAvailable := false }
  else if (s == "cancelled" || s == "completed")
          && !(oldStatus == "cancelled") && !(oldStatus == "completed") then
    { t with isAvailable := true }
  else t

/-- PUT /api/reservations/:id/status (lines 768-800): require a truthy status,
fetch the reservation, synchronize the attached table when it still exists
(unavailable on a transition into confirmed, available on a transition into
cancelled or completed), save the table first and then the reservation.  The
table save precedes the reservation save, so it persists even when the
reservation save then fails schema validation. -/
def updateReservationStatus (db : DB) (rid : Nat) (status : Option String) :
    Except Err Reservation × DB :=
  match status with
  | none => (Except.error (Err.badRequest "Please provide a new status for the reservation."), db)
  | some s =>
    if s == "" then
      (Except.error (Err.badRequest "Please provide a new status for the reservation."), db)
    else
      match db.reservations.find? (fun r => r.id == rid) with
      | none => (Except.error (Err.notFound "Reservation not found"), db)
      | some resv =>
        let oldStatus := resv.status
        let resv1 := { resv with status := s }
        let tables1 :=
          match resv.table with
          | none => db.tables
          | some tid =>
            match db.tables.find? (fun t => t.id == tid) with
            | none => db.tables
            | some _ =>
              updateFirst (fun t => t.id == tid) (reservationTableSync s oldStatus)
                db.tables
        if reservationStatusEnum.contains s then
          (Except.ok resv1,
           { db with tables := tables1,
                     reservations := updateFirst (fun r => r.id == rid) (fun _ => resv1)
                       db.reservations })
        else
          (Except.error Err.internal, { db with tables := tables1 })

/-- DELETE /api/reservations/:id (lines 805-826): findByIdAndDelete, then free
the attached table only when the deleted reservation was confirmed and the
table still exists. -/
def deleteReservation (db : DB) (rid : Nat) : Except Err String × DB :=
  match db.reservations.find? (fun r => r.id == rid) with
  | none => (Except.error (Err.notFound "Reservation not found"), db)
  | some resv =>
    let db1 := { db with reservations := db.reservations.eraseP (fun r => r.id == rid) }
    let tables1 :=
      if resv.table.isSome && resv.status == "confirmed" then
        match resv.table with
        | some tid =>
          match db.tables.find? (fun t => t.id == tid) with
          | none => db1.tables
          | some _ =>
            updateFirst (fun t => t.id == tid) (fun t => { t with isAvailable := true })
              db1.tables
        | none => db1.tables
      else db1.tables
    (Except.ok "Reservation removed", { db1 with tables := tables1 })

/-! ## Observations used by the theorems -/

/-- Quantity of the first inventory record with a given name. -/
def qtyOf (inv : List InventoryItem) (n : String) : Option Int :=
  (inv.find? (fun r => r.itemName == n)).map (fun r => r.quantity)

/-- Availability flag of the first table with a given id. -/
def tableAvail (db : DB) (tid : Nat) : Option Bool :=
  (db.tables.find? (fun t => t.id == tid)).map (fun t => t.isAvailable)

/-- Total delta aimed at a given inventory name by a batch of order items. -/
def sumFor (n : String) (L : List (String × Int)) : Int :=
  ((L.filter (fun it => it.1 == n)).map (fun it => it.2)).sum

/-- Sum of priceAtOrder times quantity over the line items of an order. -/
def lineItemsTotal (items : List OrderLineItem) : Int :=
  (items.map (fun it => it.priceAtOrder * it.quantity)).sum

/-! ## General lemmas about the helpers -/

theorem find?_updateFirst {α : Type} (p : α → Bool) (f : α → α) (l : List α) (a : α)
    (h : l.find? p = some a) (hf : p (f a) = true) :
    (updateFirst p f l).find? p = some (f a) := by
  induction l with
  | nil => simp [List.find?] at h
  | cons b bs ih =>
    simp only [updateFirst]
    cases hb : p b with
    | true =>
      rw [if_pos rfl]
      simp only [List.find?, hb] at h
      cases h
      simp [List.find?, hf]
    | false =>
      rw [if_neg (by simp [hb])]
      simp only [List.find?, hb] at h
      simp only [List.find?, hb]
      exact ih h

theorem updateFirst_of_find?_eq_none {α : Type} (p : α → Bool) (f : α → α) (l : List α)
    (h : l.find? p = none) : updateFirst p f l = l := by
  induction l with
  | nil => rfl
  | cons b bs ih =>
    simp only [updateFirst]
    cases hb : p b with
    | true =>
      simp only [List.find?, hb] at h
      cases h
    | false =>
      rw [if_neg (by simp [hb])]
      simp only [List.find?, hb] at h
      rw [ih h]

theorem find?_updateFirst_of_neg {α : Type} (p q : α → Bool) (f : α → α) (l : List α)
    (hpq : ∀ x, q x = true → p x = false) (hq : ∀ x, q (f x) = q x) :
    (updateFirst p f l).find? q = l.find? q := by
  induction l with
  | nil => rfl
  | cons b bs ih =>
    simp only [updateFirst]
    cases hb : p b with
    | true =>
      rw [if_pos rfl]
      have hqb : q b = false := by
        cases hqb : q b with
        | true => rw [hpq b hqb] at hb; exact absurd hb (by simp)
        | false => rfl
      simp only [List.find?, hq b, hqb]
    | false =>
      rw [if_neg (by simp [hb])]
      cases hqb : q b with
      | true => simp only [List.find?, hqb]
      | false =>
        simp only [List.find?, hqb]
        exact ih

/-! ## Inventory adjuster lemmas -/

theorem adjustQuantity_nonneg (q d : Int) (b : Bool) : 0 ≤ adjustQuantity q d b := by
  cases b with
  | true =>
    show 0 ≤ if q - d < 0 then (0 : Int) else q - d
    split <;> omega
  | false =>
    show 0 ≤ if q + d < 0 then (0 : Int) else q + d
    split <;> omega

theorem adjustQuantity_dec (q d : Int) (h : 0 ≤ q - d) : adjustQuantity q d true = q - d := by
  show (if q - d < 0 then (0 : Int) else q - d) = q - d
  split <;> omega

theorem adjustQuantity_inc (q d : Int) (h : 0 ≤ q + d) : adjustQuantity q d false = q + d := by
  show (if q + d < 0 then (0 : Int) else q + d) = q + d
  split <;> omega

theorem adjustQuantity_of_clamp (q d : Int) (h : q - d < 0) : adjustQuantity q d true = 0 := by
  show (if q - d < 0 then (0 : Int) else q - d) = 0
  split <;> omega

theorem qtyOf_applyInventoryItem (inv : List InventoryItem) (it : String × Int)
    (b : Bool) (now : Nat) (n : String) :
    qtyOf (applyInventoryItem inv it b now) n =
      if n = it.1 then (qtyOf inv n).map (fun q => adjustQuantity q it.2 b)
      else qtyOf inv n := by
  induction inv with
  | nil =>
    simp only [applyInventoryItem, updateFirst, qtyOf, List.find?]
    split <;> rfl
  | cons r rs ih =>
    simp only [applyInventoryItem, updateFirst] at ih ⊢
    cases hr : (r.itemName == it.1) with
    | true =>
      rw [if_pos rfl]
      have hr1 : r.itemName = it.1 := beq_iff_eq.mp hr
      by_cases hn : n = it.1
      · subst hn
        rw [if_pos rfl]
        simp only [qtyOf, List.find?, hr]
        rfl
      · rw [if_neg hn]
        have hrn : (r.itemName == n) = false := by
          rw [beq_eq_false_iff_ne, hr1]
          exact fun hc => hn hc.symm
        simp only [qtyOf, List.find?, hrn]
    | false =>
      rw [if_neg (by simp [hr])]
      cases hrn : (r.itemName == n) with
      | true =>
        have hn : ¬ n = it.1 := by
          intro hc
          rw [beq_iff_eq.mp hrn, hc] at hr
          simp at hr
        rw [if_neg hn]
        simp only [qtyOf, List.find?, hrn]
      | false =>
        simp only [qtyOf] at ih ⊢
        simp only [List.find?, hrn]
        exact ih

theorem sumFor_cons (n : String) (it : String × Int) (L : List (String × Int)) :
    sumFor n (it :: L) = (if it.1 = n then it.2 else 0) + sumFor n L := by
  simp only [sumFor, List.filter]
  by_cases h : it.1 = n
  · simp [h]
  · have : (it.1 == n) = false := beq_eq_false_iff_ne.mpr h
    simp [this, h]

theorem sumFor_nonneg (n : String) (L : List (String × Int)) (h : ∀ it ∈ L, 0 ≤ it.2) :
    0 ≤ sumFor n L := by
  induction L with
  | nil => simp [sumFor]
  | cons it L ih =>
    rw [sumFor_cons]
    have h1 : 0 ≤ it.2 := h it (by simp)
    have h2 : 0 ≤ sumFor n L := ih (fun x hx => h x (by simp [hx]))
    split <;> omega

theorem updateInventoryForOrder_nil (b : Bool) (now : Nat) (inv : List InventoryItem) :
    updateInventoryForOrder [] b now inv = inv := rfl

theorem updateInventoryForOrder_cons (it : String × Int) (L : List (String × Int))
    (b : Bool) (now : Nat) (inv : List InventoryItem) :
    updateInventoryForOrder (it :: L) b now inv
      = updateInventoryForOrder L b now (applyInventoryItem inv it b now) := rfl

theorem mem_updateFirst {α : Type} (p : α → Bool) (f : α → α) (l : List α) (r : α)
    (h : r ∈ updateFirst p f l) : r ∈ l ∨ ∃ a, a ∈ l ∧ r = f a := by
  induction l with
  | nil => cases h
  | cons b bs ih =>
    simp only [updateFirst] at h
    by_cases hb : p b = true
    · rw [if_pos hb] at h
      rcases List.mem_cons.mp h with h1 | h1
      · exact Or.inr ⟨b, List.mem_cons_self b bs, h1⟩
      · exact Or.inl (List.mem_cons_of_mem _ h1)
    · rw [if_neg hb] at h
      rcases List.mem_cons.mp h with h1 | h1
      · exact Or.inl (h1 ▸ List.mem_cons_self b bs)
      · rcases ih h1 with h2 | ⟨a, ha, hr2⟩
        · exact Or.inl (List.mem_cons_of_mem _ h2)
        · exact Or.inr ⟨a, List.mem_cons_of_mem _ ha, hr2⟩

theorem updateInventoryForOrder_nonneg (L : List (String × Int)) :
    ∀ (inv : List InventoryItem) (b : Bool) (now : Nat),
      (∀ r ∈ inv, 0 ≤ r.quantity) →
      ∀ r ∈ updateInventoryForOrder L b now inv, 0 ≤ r.quantity := by
  induction L with
  | nil => intro inv b now h r hr; exact h r hr
  | cons it L ih =>
    intro inv b now h r hr
    rw [updateInventoryForOrder_cons] at hr
    refine ih _ b now ?_ r hr
    intro x hx
    simp only [applyInventoryItem] at hx
    rcases mem_updateFirst _ _ _ _ hx with h1 | ⟨a, _, hx2⟩
    · exact h x h1
    · rw [hx2]
      exact adjustQuantity_nonneg a.quantity it.2 b

theorem qtyOf_pass_dec (L : List (String × Int)) :
    ∀ (inv : List InventoryItem) (now : Nat) (n : String),
      (∀ it ∈ L, 0 ≤ it.2) →
      (∀ m q, qtyOf inv m = some q → sumFor m L ≤ q) →
      qtyOf (updateInventoryForOrder L true now inv) n
        = (qtyOf inv n).map (fun q => q - sumFor n L) := by
  induction L with
  | nil =>
    intro inv now n h1 h2
    rw [updateInventoryForOrder_nil]
    cases h : qtyOf inv n <;> simp [sumFor, h]
  | cons it L ih =>
    intro inv now n h1 h2
    rw [updateInventoryForOrder_cons]
    have hd : 0 ≤ it.2 := h1 it (List.mem_cons_self it L)
    have h1' : ∀ x ∈ L, 0 ≤ x.2 := fun x hx => h1 x (List.mem_cons_of_mem _ hx)
    have h2' : ∀ m q, qtyOf (applyInventoryItem inv it true now) m = some q →
        sumFor m L ≤ q := by
      intro m q hq
      rw [qtyOf_applyInventoryItem] at hq
      by_cases hm : m = it.1
      · rw [if_pos hm] at hq
        cases hq0 : qtyOf inv m with
        | none => rw [hq0] at hq; cases hq
        | some q0 =>
          rw [hq0] at hq
          simp only [Option.map] at hq
          have hsum := h2 m q0 hq0
          rw [sumFor_cons, if_pos hm.symm] at hsum
          have hS0 : 0 ≤ sumFor m L := sumFor_nonneg m L h1'
          have hadj : adjustQuantity q0 it.2 true = q0 - it.2 :=
            adjustQuantity_dec q0 it.2 (by omega)
          rw [hadj] at hq
          cases hq
          omega
      · rw [if_neg hm] at hq
        have hsum := h2 m q hq
        rw [sumFor_cons, if_neg (fun hc => hm hc.symm)] at hsum
        omega
    rw [ih _ now n h1' h2', qtyOf_applyInventoryItem]
    by_cases hn : n = it.1
    · rw [if_pos hn]
      have hS : sumFor n (it :: L) = it.2 + sumFor n L := by
        rw [sumFor_cons, if_pos hn.symm]
      cases hq0 : qtyOf inv n with
      | none => rfl
      | some q0 =>
        have hsum := h2 n q0 hq0
        rw [hS] at hsum
        have hS0 : 0 ≤ sumFor n L := sumFor_nonneg n L h1'
        have hadj : adjustQuantity q0 it.2 true = q0 - it.2 :=
          adjustQuantity_dec q0 it.2 (by omega)
        show some (adjustQuantity q0 it.2 true - sumFor n L) = some (q0 - sumFor n (it :: L))
        rw [hadj, hS]
        exact congrArg some (by omega)
    · rw [if_neg hn]
      have hS : sumFor n (it :: L) = sumFor n L := by
        rw [sumFor_cons, if_neg (fun hc => hn hc.symm)]
        omega
      simp only [hS]

theorem qtyOf_pass_inc (L : List (String × Int)) :
    ∀ (inv : List InventoryItem) (now : Nat) (n : String),
      (∀ it ∈ L, 0 ≤ it.2) →
      (∀ m q, qtyOf inv m = some q → 0 ≤ q) →
      qtyOf (updateInventoryForOrder L false now inv) n
        = (qtyOf inv n).map (fun q => q + sumFor n L) := by
  induction L with
  | nil =>
    intro inv now n h1 h2
    rw [updateInventoryForOrder_nil]
    cases h : qtyOf inv n <;> simp [sumFor, h]
  | cons it L ih =>
    intro inv now n h1 h2
    rw [updateInventoryForOrder_cons]
    have hd : 0 ≤ it.2 := h1 it (List.mem_cons_self it L)
    have h1' : ∀ x ∈ L, 0 ≤ x.2 := fun x hx => h1 x (List.mem_cons_of_mem _ hx)
    have h2' : ∀ m q, qtyOf (applyInventoryItem inv it false now) m = some q → 0 ≤ q := by
      intro m q hq
      rw [qtyOf_applyInventoryItem] at hq
      by_cases hm : m = it.1
      · rw [if_pos hm] at hq
        cases hq0 : qtyOf inv m with
        | none => rw [hq0] at hq; cases hq
        | some q0 =>
          rw [hq0] at hq
          simp only [Option.map] at hq
          cases hq
          exact adjustQuantity_nonneg q0 it.2 false
      · rw [if_neg hm] at hq
        exact h2 m q hq
    rw [ih _ now n h1' h2', qtyOf_applyInventoryItem]
    by_cases hn : n = it.1
    · rw [if_pos hn]
      have hS : sumFor n (it :: L) = it.2 + sumFor n L := by
        rw [sumFor_cons, if_pos hn.symm]
      cases hq0 : qtyOf inv n with
      | none => rfl
      | some q0 =>
        have hq0nn : 0 ≤ q0 := h2 n q0 hq0
        have hadj : adjustQuantity q0 it.2 false = q0 + it.2 :=
          adjustQuantity_inc q0 it.2 (by omega)
        show some (adjustQuantity q0 it.2 false + sumFor n L) = some (q0 + sumFor n (it :: L))
        rw [hadj, hS]
        exact congrArg some (by omega)
    · rw [if_neg hn]
      have hS : sumFor n (it :: L) = sumFor n L := by
        rw [sumFor_cons, if_neg (fun hc => hn hc.symm)]
        omega
      simp only [hS]

/-! ## Order engine lemmas -/

theorem buildOrderItems_total (menu : List MenuItem) (items : List OrderReqItem) :
    ∀ ois total names, buildOrderItems menu items = Except.ok (ois, total, names) →
      total = lineItemsTotal ois := by
  induction items with
  | nil =>
    intro ois total names h
    simp only [buildOrderItems] at h
    cases h
    rfl
  | cons it rest ih =>
    intro ois total names h
    simp only [buildOrderItems] at h
    split at h
    · cases h
    · rename_i m hfind
      split at h
      · cases h
      · split at h
        · cases h
        · split at h
          · cases h
          · rename_i ois1 total1 names1 hrec
            cases h
            have htl := ih ois1 total1 names1 hrec
            simp [lineItemsTotal, List.map_cons, List.sum_cons] at htl ⊢
            omega

theorem buildOrderItems_names (menu : List MenuItem) (items : List OrderReqItem) :
    ∀ ois total names, buildOrderItems menu items = Except.ok (ois, total, names) →
      names = restockList menu ois := by
  induction items with
  | nil =>
    intro ois total names h
    simp only [buildOrderItems] at h
    cases h
    rfl
  | cons it rest ih =>
    intro ois total names h
    simp only [buildOrderItems] at h
    split at h
    · cases h
    · rename_i m hfind
      split at h
      · cases h
      · split at h
        · cases h
        · split at h
          · cases h
          · rename_i ois1 total1 names1 hrec
            cases h
            have hb := List.find?_some hfind
            have hid : m.id = it.menuItemId := by
              simp only [] at hb
              exact beq_iff_eq.mp hb
            have hfind2 : menu.find? (fun x => x.id == m.id) = some m := by
              simp only [hid]
              exact hfind
            simp only [restockList, List.map_cons, hfind2]
            have := ih ois1 total1 names1 hrec
            simp only [restockList] at this
            rw [this]

theorem buildOrderItems_deltas (menu : List MenuItem) (items : List OrderReqItem) :
    ∀ ois total names, buildOrderItems menu items = Except.ok (ois, total, names) →
      ∀ x ∈ names, 0 ≤ x.2 := by
  induction items with
  | nil =>
    intro ois total names h
    simp only [buildOrderItems] at h
    cases h
    intro x hx
    cases hx
  | cons it rest ih =>
    intro ois total names h
    simp only [buildOrderItems] at h
    split at h
    · cases h
    · rename_i m hfind
      split at h
      · cases h
      · split at h
        · cases h
        · split at h
          · cases h
          · rename_i ois1 total1 names1 hrec
            cases h
            intro x hx
            rcases List.mem_cons.mp hx with h1 | h1
            · rw [h1]
              simp only []
              omega
            · exact ih ois1 total1 names1 hrec x h1

theorem placeOrder_ok (db : DB) (tableId : Option Nat) (items : List OrderReqItem)
    (now nid : Nat) (ord : Order) (db1 : DB)
    (h : placeOrder db tableId items now nid = (Except.ok ord, db1)) :
    ∃ tid ois total names,
      tableId = some tid ∧
      buildOrderItems db.menuItems items = Except.ok (ois, total, names) ∧
      ord = { id := nid, table := tid, items := ois, totalAmount := total,
              status := "pending", orderTime := now, completionTime := none } ∧
      db1 = { db with orders := db.orders ++ [ord],
                      inventory := updateInventoryForOrder names true now db.inventory } := by
  cases tableId with
  | none =>
    simp only [placeOrder] at h
    exact Except.noConfusion (congrArg Prod.fst h)
  | some tid =>
    simp only [placeOrder] at h
    by_cases he : items.isEmpty = true
    · rw [if_pos he] at h
      exact Except.noConfusion (congrArg Prod.fst h)
    · rw [if_neg he] at h
      cases htb : db.tables.find? (fun t => t.id == tid) with
      | none =>
        rw [htb] at h
        exact Except.noConfusion (congrArg Prod.fst h)
      | some tfound =>
        rw [htb] at h
        cases hbo : buildOrderItems db.menuItems items with
        | error e =>
          rw [hbo] at h
          exact Except.noConfusion (congrArg Prod.fst h)
        | ok tr =>
          obtain ⟨ois, total, names⟩ := tr
          rw [hbo] at h
          have h1 := congrArg Prod.fst h
          have h2 := congrArg Prod.snd h
          simp only [] at h1 h2
          have hord : ord = { id := nid, table := tid, items := ois, totalAmount := total,
                              status := "pending", orderTime := now,
                              completionTime := none } := by
            cases h1
            rfl
          refine ⟨tid, ois, total, names, rfl, rfl, hord, ?_⟩
          rw [← h2, hord]

theorem updateMenuItem_orders (db : DB) (mid : Nat) (req : MenuUpdateReq) :
    (updateMenuItem db mid req).2.orders = db.orders := by
  simp only [updateMenuItem]
  cases hfind : db.menuItems.find? (fun m => m.id == mid) with
  | none => rfl
  | some m =>
    dsimp only
    split <;> rfl

/-- An order request item that passes all three per-item checks of the
POST /api/orders loop: it resolves, is available, and has positive quantity. -/
def passesChecks (menu : List MenuItem) (it : OrderReqItem) : Bool :=
  match menu.find? (fun m => m.id == it.menuItemId) with
  | some m => m.isAvailable && decide (0 < it.quantity)
  | none => false

theorem buildOrderItems_first_unavailable (menu : List MenuItem) (pre : List OrderReqItem)
    (badIt : OrderReqItem) (rest : List OrderReqItem) (bm : MenuItem)
    (hpre : ∀ x ∈ pre, passesChecks menu x = true)
    (hbad : menu.find? (fun m => m.id == badIt.menuItemId) = some bm)
    (hunavail : bm.isAvailable = false) :
    buildOrderItems menu (pre ++ badIt :: rest)
      = Except.error (Err.badRequest (bm.name ++ " is currently not available.")) := by
  induction pre with
  | nil =>
    simp [buildOrderItems, hbad, hunavail]
  | cons p pre ih =>
    have hp := hpre p (List.mem_cons_self p pre)
    simp only [passesChecks] at hp
    cases hf : menu.find? (fun m => m.id == p.menuItemId) with
    | none => rw [hf] at hp; cases hp
    | some pm =>
      rw [hf] at hp
      simp only [Bool.and_eq_true, decide_eq_true_eq] at hp
      obtain ⟨hav, hq⟩ := hp
      have hqle : ¬ (p.quantity ≤ 0) := by omega
      rw [List.cons_append]
      simp only [buildOrderItems, hf]
      rw [if_neg (by simp [hav]), if_neg hqle,
          ih (fun x hx => hpre x (List.mem_cons_of_mem _ hx))]

/-- C1: for every successfully placed order, the persisted totalAmount equals
the sum over its line items of priceAtOrder times quantity (each priceAtOrder
snapshots the price of the resolved MenuItem at order time), and a later menu
update (PUT /api/menu/:id, in particular a price edit) never modifies the
persisted orders, so neither totalAmount nor any priceAtOrder changes. -/
theorem order_total_snapshot_immutable
    (db : DB) (tableId : Option Nat) (items : List OrderReqItem) (now nid : Nat)
    (ord : Order) (db1 : DB)
    (h : placeOrder db tableId items now nid = (Except.ok ord, db1)) :
    ord.totalAmount = lineItemsTotal ord.items
    ∧ ord ∈ db1.orders
    ∧ ∀ (mid : Nat) (req : MenuUpdateReq),
        (updateMenuItem db1 mid req).2.orders = db1.orders := by
  obtain ⟨tid, ois, total, names, -, hbo, hord, hdb1⟩ :=
    placeOrder_ok db tableId items now nid ord db1 h
  refine ⟨?_, ?_, fun mid req => updateMenuItem_orders db1 mid req⟩
  · rw [hord]
    exact buildOrderItems_total db.menuItems items ois total names hbo
  · rw [hdb1]
    simp

/-- C6 (amended): when some requested MenuItem is unavailable, all requested
items resolve, and every item before the first unavailable one passes its
checks, POST /api/orders fails with the 400 Conflict response for that item
and leaves the database unchanged: no Order is created and no inventory
quantity changes. -/
theorem placeOrder_unavailable_conflict
    (db : DB) (tid : Nat) (pre rest : List OrderReqItem) (badIt : OrderReqItem)
    (bm : MenuItem) (tbl : Table) (now nid : Nat)
    (htbl : db.tables.find? (fun t => t.id == tid) = some tbl)
    (hpre : ∀ x ∈ pre, passesChecks db.menuItems x = true)
    (hbad : db.menuItems.find? (fun m => m.id == badIt.menuItemId) = some bm)
    (hunavail : bm.isAvailable = false) :
    placeOrder db (some tid) (pre ++ badIt :: rest) now nid
      = (Except.error (Err.badRequest (bm.name ++ " is currently not available.")), db) := by
  simp only [placeOrder]
  rw [if_neg (by cases pre <;> simp)]
  simp only [htbl,
    buildOrderItems_first_unavailable db.menuItems pre badIt rest bm hpre hbad hunavail]

theorem find?_append_of_none {α : Type} (p : α → Bool) (l1 l2 : List α)
    (h : l1.find? p = none) : (l1 ++ l2).find? p = l2.find? p := by
  induction l1 with
  | nil => rfl
  | cons a l1 ih =>
    cases ha : p a with
    | true =>
      simp only [List.find?, ha] at h
      cases h
    | false =>
      simp only [List.find?, ha] at h
      simp only [List.cons_append, List.find?, ha]
      exact ih h

theorem updateOrderStatus_cancel_inventory (db : DB) (oid : Nat) (now : Nat) (ord : Order)
    (hfind : db.orders.find? (fun o => o.id == oid) = some ord)
    (hold : ord.status ≠ "cancelled") :
    (updateOrderStatus db oid (some "cancelled") now).2.inventory
      = updateInventoryForOrder (restockList db.menuItems ord.items) false now db.inventory := by
  have hb : (ord.status == "cancelled") = false := beq_eq_false_iff_ne.mpr hold
  simp only [updateOrderStatus]
  rw [if_neg (by decide)]
  simp only [hfind, hb]
  rw [if_pos (show orderStatusEnum.contains "cancelled" = true by rfl)]
  simp

theorem updateOrderStatus_core (db : DB) (oid : Nat) (s : String) (now : Nat) (ord : Order)
    (hfind : db.orders.find? (fun o => o.id == oid) = some ord)
    (hne : (s == "") = false)
    (hcont : orderStatusEnum.contains s = true) :
    isOk (updateOrderStatus db oid (some s) now).1 = true
    ∧ ((updateOrderStatus db oid (some s) now).2.orders.find? (fun o => o.id == oid)).map
        (fun o => o.status) = some s := by
  simp only [updateOrderStatus]
  rw [if_neg (by simp [hne])]
  simp only [hfind]
  rw [if_pos hcont]
  set o2 := (if (s == "completed" && !(ord.status == "completed")) = true then
               { ord with status := s, completionTime := some now }
             else { ord with status := s }) with ho2
  have hid2 : o2.id = ord.id := by rw [ho2]; split <;> rfl
  have hst2 : o2.status = s := by rw [ho2]; split <;> rfl
  have hp : (ord.id == oid) = true := by
    have := List.find?_some hfind
    simpa using this
  have hp2 : ((fun x : Order => x.id == oid) o2) = true := by
    show (o2.id == oid) = true
    rw [hid2]
    exact hp
  refine ⟨rfl, ?_⟩
  rw [find?_updateFirst (fun x => x.id == oid) (fun _ => o2) db.orders ord hfind hp2]
  simp [hst2]

/-- C8 (amended): PUT /api/orders/:id/status enforces no transition graph:
any status belonging to the Order schema enum is accepted from any current
status (for example completed to pending succeeds) and is persisted.  A
string outside the enum, however, fails schema validation at save and is
rejected with a 500, not persisted (see the counterexample). -/
theorem orderStatus_any_enum_transition_accepted
    (db : DB) (oid : Nat) (s : String) (now : Nat) (ord : Order)
    (hfind : db.orders.find? (fun o => o.id == oid) = some ord)
    (hmem : s ∈ orderStatusEnum) :
    isOk (updateOrderStatus db oid (some s) now).1 = true
    ∧ ((updateOrderStatus db oid (some s) now).2.orders.find? (fun o => o.id == oid)).map
        (fun o => o.status) = some s := by
  have hne : (s == "") = false := by
    fin_cases hmem <;> rfl
  have hcont : orderStatusEnum.contains s = true := by
    fin_cases hmem <;> rfl
  exact updateOrderStatus_core db oid s now ord hfind hne hcont

/-- C7 (amended): placing an order and then cancelling it (with no
interleaved operation) restores every inventory quantity to its value from
before the order, provided the stock was sufficient, that is the decrement
pass never clamped (each record held at least the total quantity ordered
under its name).  Without that proviso the clamp loses the negative
remainder and the restock overshoots (see the counterexample). -/
theorem cancel_restores_inventory_when_stock_sufficient
    (db : DB) (tableId : Option Nat) (items : List OrderReqItem) (now now2 nid : Nat)
    (ord : Order) (db1 : DB) (res2 : Except Err Order) (db2 : DB)
    (hplace : placeOrder db tableId items now nid = (Except.ok ord, db1))
    (hfresh : db.orders.find? (fun o => o.id == nid) = none)
    (hcancel : updateOrderStatus db1 nid (some "cancelled") now2 = (res2, db2))
    (hsuff : ∀ r ∈ db.inventory,
      sumFor r.itemName (restockList db.menuItems ord.items) ≤ r.quantity) :
    ∀ n, qtyOf db2.inventory n = qtyOf db.inventory n := by
  obtain ⟨tid, ois, total, names, htid, hbo, hord, hdb1⟩ :=
    placeOrder_ok db tableId items now nid ord db1 hplace
  have hnames : names = restockList db.menuItems ois :=
    buildOrderItems_names db.menuItems items ois total names hbo
  have hitems : ord.items = ois := by rw [hord]
  have hdeltas : ∀ x ∈ names, 0 ≤ x.2 :=
    buildOrderItems_deltas db.menuItems items ois total names hbo
  have hfind1 : db1.orders.find? (fun o => o.id == nid) = some ord := by
    rw [hdb1]
    show (db.orders ++ [ord]).find? (fun o => o.id == nid) = some ord
    rw [find?_append_of_none _ _ _ hfresh]
    have hp : (ord.id == nid) = true := by rw [hord]; simp
    simp [List.find?, hp]
  have hstat : ord.status = "pending" := by rw [hord]
  have hinv2 : db2.inventory
      = updateInventoryForOrder (restockList db1.menuItems ord.items) false now2
          db1.inventory := by
    have hchar := updateOrderStatus_cancel_inventory db1 nid now2 ord hfind1
      (by rw [hstat]; decide)
    rw [hcancel] at hchar
    exact hchar
  have hmenu1 : db1.menuItems = db.menuItems := by rw [hdb1]
  have hinv1 : db1.inventory = updateInventoryForOrder names true now db.inventory := by
    rw [hdb1]
  have hsuff2 : ∀ m q, qtyOf db.inventory m = some q → sumFor m names ≤ q := by
    intro m q hq
    simp only [qtyOf] at hq
    cases hfq : db.inventory.find? (fun r => r.itemName == m) with
    | none => rw [hfq] at hq; cases hq
    | some r =>
      rw [hfq] at hq
      simp only [Option.map] at hq
      cases hq
      have hmem := List.mem_of_find?_eq_some hfq
      have hname : r.itemName = m := by
        have := List.find?_some hfq
        simp only [] at this
        exact beq_iff_eq.mp this
      have hs := hsuff r hmem
      rw [hitems, ← hnames, hname] at hs
      exact hs
  intro n
  rw [hinv2, hmenu1, hitems, ← hnames, hinv1]
  rw [qtyOf_pass_inc names (updateInventoryForOrder names true now db.inventory) now2 n
        hdeltas ?hinner]
  case hinner =>
    intro m q hq
    rw [qtyOf_pass_dec names db.inventory now m hdeltas hsuff2] at hq
    cases hq0 : qtyOf db.inventory m with
    | none => rw [hq0] at hq; cases hq
    | some q0 =>
      rw [hq0] at hq
      simp only [Option.map] at hq
      cases hq
      have := hsuff2 m q0 hq0
      omega
  rw [qtyOf_pass_dec names db.inventory now n hdeltas hsuff2]
  cases hq0 : qtyOf db.inventory n with
  | none => rfl
  | some q0 =>
    show some (q0 - sumFor n names + sumFor n names) = some q0
    exact congrArg some (by omega)

/-! ## Reservation engine lemmas -/

theorem mem_insertByCapacity (t a : Table) (l : List Table) :
    a ∈ insertByCapacity t l ↔ a = t ∨ a ∈ l := by
  induction l with
  | nil => simp [insertByCapacity]
  | cons b bs ih =>
    simp only [insertByCapacity]
    split
    · simp [List.mem_cons]
    · rw [List.mem_cons, ih, List.mem_cons]
      tauto

theorem mem_sortByCapacity (a : Table) (l : List Table) :
    a ∈ sortByCapacity l ↔ a ∈ l := by
  induction l with
  | nil => simp [sortByCapacity]
  | cons b bs ih =>
    simp [sortByCapacity, mem_insertByCapacity, ih]

theorem sorted_insertByCapacity (t : Table) (l : List Table)
    (h : l.Pairwise (fun a b => a.capacity ≤ b.capacity)) :
    (insertByCapacity t l).Pairwise (fun a b => a.capacity ≤ b.capacity) := by
  induction l with
  | nil => simp [insertByCapacity]
  | cons b bs ih =>
    rcases List.pairwise_cons.mp h with ⟨hb, hbs⟩
    simp only [insertByCapacity]
    split
    · rename_i hle
      refine List.Pairwise.cons ?_ h
      intro x hx
      rcases List.mem_cons.mp hx with rfl | hx2
      · exact hle
      · exact le_trans hle (hb x hx2)
    · rename_i hgt
      refine List.Pairwise.cons ?_ (ih hbs)
      intro x hx
      rcases (mem_insertByCapacity t x bs).mp hx with rfl | hx2
      · omega
      · exact hb x hx2

theorem sorted_sortByCapacity (l : List Table) :
    (sortByCapacity l).Pairwise (fun a b => a.capacity ≤ b.capacity) := by
  induction l with
  | nil => simp [sortByCapacity]
  | cons b bs ih => exact sorted_insertByCapacity b _ ih

theorem find?_sorted_min (l : List Table) (p : Table → Bool) (x : Table)
    (hs : l.Pairwise (fun a b => a.capacity ≤ b.capacity))
    (hf : l.find? p = some x) :
    ∀ y ∈ l, p y = true → x.capacity ≤ y.capacity := by
  induction l with
  | nil =>
    simp only [List.find?] at hf
    cases hf
  | cons b bs ih =>
    rcases List.pairwise_cons.mp hs with ⟨hb, hbs⟩
    intro y hy hpy
    cases hpb : p b with
    | true =>
      simp only [List.find?, hpb] at hf
      cases hf
      rcases List.mem_cons.mp hy with rfl | hy2
      · exact le_refl _
      · exact hb y hy2
    | false =>
      simp only [List.find?, hpb] at hf
      rcases List.mem_cons.mp hy with rfl | hy2
      · rw [hpy] at hpb; cases hpb
      · exact ih hbs hf y hy2 hpy

theorem mem_candidateTables (db : DB) (g : Nat) (t : Table) :
    t ∈ candidateTables db g ↔
      t ∈ db.tables ∧ t.isAvailable = true ∧ g ≤ t.capacity := by
  simp [candidateTables, mem_sortByCapacity, List.mem_filter, Bool.and_eq_true,
    decide_eq_true_eq, and_assoc]

theorem assignedTable_spec (db : DB) (g d : Nat) (tm : String) (t : Table)
    (h : assignedTable db g d tm = some t) :
    t ∈ db.tables ∧ t.isAvailable = true ∧ g ≤ t.capacity ∧
    conflictExists db.reservations t.id d tm = false ∧
    ∀ t' ∈ db.tables, t'.isAvailable = true → g ≤ t'.capacity →
      conflictExists db.reservations t'.id d tm = false → t.capacity ≤ t'.capacity := by
  have hmem : t ∈ candidateTables db g := List.mem_of_find?_eq_some h
  have hmem2 := (mem_candidateTables db g t).mp hmem
  have hpt := List.find?_some h
  refine ⟨hmem2.1, hmem2.2.1, hmem2.2.2, by simpa using hpt, ?_⟩
  intro t' ht' hav hcap hconf
  refine find?_sorted_min (candidateTables db g) _ t (sorted_sortByCapacity _) h t' ?_ ?_
  · exact (mem_candidateTables db g t').mpr ⟨ht', hav, hcap⟩
  · simp [hconf]

theorem assignedTable_none (db : DB) (g d : Nat) (tm : String)
    (h : ∀ t ∈ db.tables, t.isAvailable = true → g ≤ t.capacity →
      conflictExists db.reservations t.id d tm = false → False) :
    assignedTable db g d tm = none := by
  apply List.find?_eq_none.mpr
  intro t ht
  have hm := (mem_candidateTables db g t).mp ht
  cases hc : conflictExists db.reservations t.id d tm with
  | true => simp [hc]
  | false => exact (h t hm.1 hm.2.1 hm.2.2 hc).elim

theorem createReservation_auto_ok (db : DB) (req : ReservationReq) (nid : Nat)
    (cn pn tm : String) (d g : Nat) (r : Reservation) (db1 : DB)
    (hcn : req.customerName = some cn) (hpn : req.phoneNumber = some pn)
    (hd : req.date = some d) (htm : req.time = some tm)
    (hg : req.numberOfGuests = some g) (hauto : req.tableId = none)
    (hok : createReservation db req nid = (Except.ok r, db1)) :
    ∃ t, assignedTable db g d tm = some t ∧
      r = { id := nid, customerName := cn, phoneNumber := pn, table := some t.id,
            date := d, time := tm, numberOfGuests := g, status := "pending",
            notes := req.notes } ∧
      db1 = { db with reservations := db.reservations ++ [r] } := by
  simp only [createReservation, hcn, hpn, hd, htm, hg, hauto] at hok
  by_cases hfal : (cn == "" || pn == "" || d == 0 || tm == "" || g == 0) = true
  · rw [if_pos hfal] at hok
    exact Except.noConfusion (congrArg Prod.fst hok)
  · rw [if_neg hfal] at hok
    by_cases hemp : (candidateTables db g).isEmpty = true
    · rw [if_pos hemp] at hok
      exact Except.noConfusion (congrArg Prod.fst hok)
    · rw [if_neg hemp] at hok
      cases hat : assignedTable db g d tm with
      | none =>
        rw [hat] at hok
        exact Except.noConfusion (congrArg Prod.fst hok)
      | some t =>
        rw [hat] at hok
        have h1 := congrArg Prod.fst hok
        have h2 := congrArg Prod.snd hok
        simp only [] at h1 h2
        have hr : r = { id := nid, customerName := cn, phoneNumber := pn,
                        table := some t.id, date := d, time := tm,
                        numberOfGuests := g, status := "pending",
                        notes := req.notes } := by
          cases h1
          rfl
        exact ⟨t, rfl, hr, by rw [← h2, hr]⟩

/-- C3: for every reservation request without a tableId whose required fields
are present and truthy, a successful auto-assignment picks an available table
of sufficient capacity with no conflicting active reservation whose capacity
is minimal among all such tables, and persists the reservation on it; and
when no such table exists the request fails with a 400 Conflict and no
reservation is created. -/
theorem reservation_auto_assign_min_capacity
    (db : DB) (req : ReservationReq) (nid : Nat) (cn pn tm : String) (d g : Nat)
    (hcn : req.customerName = some cn) (hcn1 : cn ≠ "")
    (hpn : req.phoneNumber = some pn) (hpn1 : pn ≠ "")
    (hd : req.date = some d) (hd1 : d ≠ 0)
    (htm : req.time = some tm) (htm1 : tm ≠ "")
    (hg : req.numberOfGuests = some g) (hg1 : g ≠ 0)
    (hauto : req.tableId = none) :
    (∀ r db1, createReservation db req nid = (Except.ok r, db1) →
      ∃ t, t ∈ db.tables ∧ r.table = some t.id ∧ t.isAvailable = true ∧
        g ≤ t.capacity ∧ conflictExists db.reservations t.id d tm = false ∧
        (∀ t' ∈ db.tables, t'.isAvailable = true → g ≤ t'.capacity →
          conflictExists db.reservations t'.id d tm = false →
          t.capacity ≤ t'.capacity) ∧
        r ∈ db1.reservations)
    ∧ ((∀ t' ∈ db.tables, t'.isAvailable = true → g ≤ t'.capacity →
          conflictExists db.reservations t'.id d tm = false → False) →
        isBadRequest (createReservation db req nid).1 = true
        ∧ (createReservation db req nid).2 = db) := by
  constructor
  · intro r db1 hok
    obtain ⟨t, hat, hr, hdb1⟩ :=
      createReservation_auto_ok db req nid cn pn tm d g r db1 hcn hpn hd htm hg hauto hok
    obtain ⟨hmem, hav, hcap, hnoconf, hmin⟩ := assignedTable_spec db g d tm t hat
    exact ⟨t, hmem, by rw [hr], hav, hcap, hnoconf, hmin, by rw [hdb1]; simp⟩
  · intro hnone
    have hat : assignedTable db g d tm = none := assignedTable_none db g d tm hnone
    have hfal : (cn == "" || pn == "" || d == 0 || tm == "" || g == 0) = false := by
      simp [beq_eq_false_iff_ne, hcn1, hpn1, hd1, htm1, hg1]
    simp only [createReservation, hcn, hpn, hd, htm, hg, hauto]
    rw [if_neg (by simp [hfal])]
    by_cases hemp : (candidateTables db g).isEmpty = true
    · rw [if_pos hemp]
      exact ⟨rfl, by trivial⟩
    · rw [if_neg hemp]
      simp only [hat]
      exact ⟨rfl, by trivial⟩

/-- C4: for every reservation request with an explicit tableId whose required
fields are present and truthy and whose table resolves, if an active
(pending or confirmed) reservation already exists for the same table, date
and time, creation fails with a 400 Conflict and no reservation is
persisted (the database is unchanged). -/
theorem reservation_explicit_double_booking_conflict
    (db : DB) (req : ReservationReq) (nid : Nat) (cn pn tm : String)
    (d tid : Nat) (g : Nat) (t : Table)
    (hcn : req.customerName = some cn) (hcn1 : cn ≠ "")
    (hpn : req.phoneNumber = some pn) (hpn1 : pn ≠ "")
    (hd : req.date = some d) (hd1 : d ≠ 0)
    (htm : req.time = some tm) (htm1 : tm ≠ "")
    (hg : req.numberOfGuests = some g) (hg1 : g ≠ 0)
    (htid : req.tableId = some tid)
    (htbl : db.tables.find? (fun x => x.id == tid) = some t)
    (hconf : conflictExists db.reservations tid d tm = true) :
    isBadRequest (createReservation db req nid).1 = true
    ∧ (createReservation db req nid).2 = db := by
  have hfal : (cn == "" || pn == "" || d == 0 || tm == "" || g == 0) = false := by
    simp [beq_eq_false_iff_ne, hcn1, hpn1, hd1, htm1, hg1]
  simp only [createReservation, hcn, hpn, hd, htm, hg, htid, htbl]
  rw [if_neg (by simp [hfal])]
  by_cases hav : (!t.isAvailable) = true
  · rw [if_pos hav]
    exact ⟨rfl, by trivial⟩
  · rw [if_neg hav]
    by_cases hcap : t.capacity < g
    · rw [if_pos hcap]
      exact ⟨rfl, by trivial⟩
    · rw [if_neg hcap]
      rw [if_pos hconf]
      exact ⟨rfl, by trivial⟩

/-- C9: every reservation successfully persisted by POST /api/reservations
has a non-null table: on both the explicit-table path and the auto-assign
path the saved document references the resolved table, so the null branch of
the expression assigning the table field is never taken on a success. -/
theorem reservation_created_table_never_null
    (db : DB) (req : ReservationReq) (nid : Nat) (r : Reservation) (db1 : DB)
    (hok : createReservation db req nid = (Except.ok r, db1)) :
    r.table.isSome = true ∧ r ∈ db1.reservations := by
  unfold createReservation at hok
  split at hok
  · split at hok
    · exact Except.noConfusion (congrArg Prod.fst hok)
    · split at hok
      · split at hok
        · exact Except.noConfusion (congrArg Prod.fst hok)
        · split at hok
          · exact Except.noConfusion (congrArg Prod.fst hok)
          · split at hok
            · exact Except.noConfusion (congrArg Prod.fst hok)
            · split at hok
              · exact Except.noConfusion (congrArg Prod.fst hok)
              · have h1 := congrArg Prod.fst hok
                have h2 := congrArg Prod.snd hok
                simp only [] at h1 h2
                cases h1
                refine ⟨rfl, ?_⟩
                rw [← h2]
                simp
      · split at hok
        · exact Except.noConfusion (congrArg Prod.fst hok)
        · split at hok
          · exact Except.noConfusion (congrArg Prod.fst hok)
          · have h1 := congrArg Prod.fst hok
            have h2 := congrArg Prod.snd hok
            simp only [] at h1 h2
            cases h1
            refine ⟨rfl, ?_⟩
            rw [← h2]
            simp
  · exact Except.noConfusion (congrArg Prod.fst hok)

theorem reservationTableSync_id (s old : String) (t : Table) :
    (reservationTableSync s old t).id = t.id := by
  simp only [reservationTableSync]
  split
  · rfl
  · split <;> rfl

theorem updateReservationStatus_tableAvail (db : DB) (rid : Nat) (s : String)
    (resv : Reservation) (tid : Nat) (t : Table)
    (hfind : db.reservations.find? (fun x => x.id == rid) = some resv)
    (htab : resv.table = some tid)
    (htbl : db.tables.find? (fun x => x.id == tid) = some t)
    (hne : (s == "") = false) :
    tableAvail (updateReservationStatus db rid (some s)).2 tid
      = some ((reservationTableSync s resv.status t).isAvailable) := by
  have hp : (t.id == tid) = true := by simpa using List.find?_some htbl
  have hp2 : ((fun x : Table => x.id == tid) (reservationTableSync s resv.status t))
      = true := by
    show ((reservationTableSync s resv.status t).id == tid) = true
    rw [reservationTableSync_id]
    exact hp
  have hfu := find?_updateFirst (fun x => x.id == tid)
    (reservationTableSync s resv.status) db.tables t htbl hp2
  simp only [updateReservationStatus]
  rw [if_neg (by simp [hne])]
  simp only [hfind, htab, htbl]
  by_cases hcont : reservationStatusEnum.contains s = true
  · rw [if_pos hcont]
    simp [tableAvail, hfu]
  · rw [if_neg hcont]
    simp [tableAvail, hfu]

theorem deleteReservation_nonconfirmed_tables (db : DB) (rid : Nat) (resv : Reservation)
    (hfind : db.reservations.find? (fun x => x.id == rid) = some resv)
    (hst : (resv.status == "confirmed") = false) :
    (deleteReservation db rid).2.tables = db.tables := by
  simp only [deleteReservation, hfind, hst]
  rw [if_neg (by simp)]

theorem deleteReservation_confirmed_frees (db : DB) (rid tid : Nat)
    (resv : Reservation) (t : Table)
    (hfind : db.reservations.find? (fun x => x.id == rid) = some resv)
    (htab : resv.table = some tid)
    (hst : resv.status = "confirmed")
    (htbl : db.tables.find? (fun x => x.id == tid) = some t) :
    tableAvail (deleteReservation db rid).2 tid = some true := by
  have hp : (t.id == tid) = true := by simpa using List.find?_some htbl
  have hp2 : ((fun x : Table => x.id == tid)
      ({ t with isAvailable := true } : Table)) = true := hp
  have hfu := find?_updateFirst (fun x => x.id == tid)
    (fun x => { x with isAvailable := true }) db.tables t htbl hp2
  simp only [deleteReservation, hfind, htab, hst, htbl]
  rw [if_pos (by simp)]
  simp [tableAvail, hfu]

/-- C5: for a reservation with an attached, still existing table, setting
the status to confirmed from a non-confirmed state marks the table
unavailable; setting it to cancelled or completed from a state that was
neither marks it available; deleting the reservation while its status is
pending leaves the tables unchanged; and deleting it while its status is
confirmed marks the table available. -/
theorem reservation_status_table_availability_sync
    (db : DB) (rid : Nat) (s : String) (resv : Reservation) (tid : Nat) (t : Table)
    (hfind : db.reservations.find? (fun x => x.id == rid) = some resv)
    (htab : resv.table = some tid)
    (htbl : db.tables.find? (fun x => x.id == tid) = some t) :
    (s = "confirmed" → resv.status ≠ "confirmed" →
      tableAvail (updateReservationStatus db rid (some s)).2 tid = some false)
    ∧ ((s = "cancelled" ∨ s = "completed") → resv.status ≠ "cancelled" →
        resv.status ≠ "completed" →
        tableAvail (updateReservationStatus db rid (some s)).2 tid = some true)
    ∧ (resv.status = "pending" → (deleteReservation db rid).2.tables = db.tables)
    ∧ (resv.status = "confirmed" →
        tableAvail (deleteReservation db rid).2 tid = some true) := by
  refine ⟨?_, ?_, ?_, ?_⟩
  · intro hs hold
    subst hs
    rw [updateReservationStatus_tableAvail db rid "confirmed" resv tid t hfind htab htbl rfl]
    have hb : (resv.status == "confirmed") = false := beq_eq_false_iff_ne.mpr hold
    simp only [reservationTableSync]
    rw [if_pos (by simp [hb])]
  · intro hs hold1 hold2
    have hb1 : (resv.status == "cancelled") = false := beq_eq_false_iff_ne.mpr hold1
    have hb2 : (resv.status == "completed") = false := beq_eq_false_iff_ne.mpr hold2
    rcases hs with rfl | rfl
    · rw [updateReservationStatus_tableAvail db rid "cancelled" resv tid t hfind htab htbl rfl]
      simp only [reservationTableSync]
      have he1 : ("cancelled" == "confirmed") = false := rfl
      rw [if_neg (by simp [he1])]
      have he2 : (("cancelled" == "cancelled" || "cancelled" == "completed")
          && !(resv.status == "cancelled") && !(resv.status == "completed")) = true := by
        simp [hb1, hb2]
      rw [if_pos he2]
    · rw [updateReservationStatus_tableAvail db rid "completed" resv tid t hfind htab htbl rfl]
      simp only [reservationTableSync]
      have he1 : ("completed" == "confirmed") = false := rfl
      rw [if_neg (by simp [he1])]
      have he3 : ("completed" == "completed") = true := rfl
      have he2 : (("completed" == "cancelled" || "completed" == "completed")
          && !(resv.status == "cancelled") && !(resv.status == "completed")) = true := by
        simp [hb1, hb2, he3]
      rw [if_pos he2]
  · intro hp
    refine deleteReservation_nonconfirmed_tables db rid resv hfind ?_
    rw [hp]
    rfl
  · intro hc
    exact deleteReservation_confirmed_frees db rid tid resv t hfind htab hc htbl

/-- C10: updating the status of a reservation that references a table which
no longer exists still succeeds: the table lookup comes back empty, no table
record is modified, the new status is persisted and a success response is
returned. -/
theorem reservationStatus_update_missing_table_succeeds
    (db : DB) (rid : Nat) (s : String) (resv : Reservation) (tid : Nat)
    (hfind : db.reservations.find? (fun x => x.id == rid) = some resv)
    (htab : resv.table = some tid)
    (hmiss : db.tables.find? (fun x => x.id == tid) = none)
    (hmem : s ∈ reservationStatusEnum) :
    isOk (updateReservationStatus db rid (some s)).1 = true
    ∧ (updateReservationStatus db rid (some s)).2.tables = db.tables
    ∧ (((updateReservationStatus db rid (some s)).2.reservations.find?
        (fun x => x.id == rid)).map (fun x => x.status)) = some s := by
  have hne : (s == "") = false := by
    fin_cases hmem <;> rfl
  have hcont : reservationStatusEnum.contains s = true := by
    fin_cases hmem <;> rfl
  simp only [updateReservationStatus]
  rw [if_neg (by simp [hne])]
  simp only [hfind, htab, hmiss]
  rw [if_pos hcont]
  refine ⟨rfl, rfl, ?_⟩
  have hpr : (resv.id == rid) = true := by simpa using List.find?_some hfind
  have hpr2 : ((fun x : Reservation => x.id == rid)
      ({ resv with status := s } : Reservation)) = true := hpr
  dsimp only
  rw [← htab]
  rw [find?_updateFirst (fun x => x.id == rid) (fun _ => { resv with status := s })
        db.reservations resv hfind hpr2]
  rfl

/-- C2: for every inventory adjustment batch over inventory records with
nonnegative quantities, every resulting persisted quantity is nonnegative,
whatever the direction and magnitude of the deltas; and a decrement step
whose delta would drive the quantity below zero clamps it to exactly zero. -/
theorem inventory_adjustment_never_negative
    (L : List (String × Int)) (b : Bool) (now : Nat) (inv : List InventoryItem)
    (h : ∀ r ∈ inv, 0 ≤ r.quantity) :
    (∀ r ∈ updateInventoryForOrder L b now inv, 0 ≤ r.quantity)
    ∧ (∀ q d : Int, q - d < 0 → adjustQuantity q d true = 0) :=
  ⟨updateInventoryForOrder_nonneg L inv b now h,
   fun q d hqd => adjustQuantity_of_clamp q d hqd⟩

/-! ## Concrete databases for the witnesses and counterexamples -/

def invC2 : List InventoryItem :=
  [{ id := 1, itemName := "Tomato", quantity := 3, unit := "kg",
     minStockLevel := 0, lastUpdated := 0 }]

theorem inventory_adjustment_never_negative_witness :
    0 ≤ ({ id := 1, itemName := "Tomato", quantity := 0, unit := "kg",
           minStockLevel := 0, lastUpdated := 1 } : InventoryItem).quantity := by
  have h := inventory_adjustment_never_negative [("Tomato", 7)] true 1 invC2 (by decide)
  exact h.1 _ (by decide)

def dbC1 : DB :=
  { menuItems := [{ id := 1, name := "Tea", description := none, price := 3,
                    category := "Beverage", isAvailable := true, imageUrl := none },
                  { id := 2, name := "Cake", description := none, price := 5,
                    category := "Dessert", isAvailable := true, imageUrl := none }],
    tables := [{ id := 1, tableNumber := 1, capacity := 4, isAvailable := true }],
    orders := [], reservations := [], inventory := [] }

def itemsC1 : List OrderReqItem :=
  [{ menuItemId := 1, quantity := 2 }, { menuItemId := 2, quantity := 1 }]

def ordC1 : Order :=
  { id := 100, table := 1,
    items := [{ menuItem := 1, quantity := 2, priceAtOrder := 3 },
              { menuItem := 2, quantity := 1, priceAtOrder := 5 }],
    totalAmount := 11, status := "pending", orderTime := 0, completionTime := none }

def db1C1 : DB := (placeOrder dbC1 (some 1) itemsC1 0 100).2

def reqUpdC1 : MenuUpdateReq :=
  { name := none, description := none, price := some 99, category := none,
    isAvailable := none, imageUrl := none }

theorem order_total_snapshot_immutable_witness :
    ordC1.totalAmount = lineItemsTotal ordC1.items
    ∧ ordC1 ∈ db1C1.orders
    ∧ (updateMenuItem db1C1 1 reqUpdC1).2.orders = db1C1.orders := by
  have h := order_total_snapshot_immutable dbC1 (some 1) itemsC1 0 100 ordC1 db1C1 (by decide)
  exact ⟨h.1, h.2.1, h.2.2 1 reqUpdC1⟩

def dbC3 : DB :=
  { menuItems := [],
    tables := [{ id := 1, tableNumber := 1, capacity := 2, isAvailable := true },
               { id := 2, tableNumber := 2, capacity := 4, isAvailable := true },
               { id := 3, tableNumber := 3, capacity := 6, isAvailable := true }],
    orders := [], reservations := [], inventory := [] }

def reqC3 : ReservationReq :=
  { customerName := some "Ana", phoneNumber := some "123", date := some 5,
    time := some "19:00", numberOfGuests := some 3, tableId := none, notes := none }

def rC3 : Reservation :=
  { id := 40, customerName := "Ana", phoneNumber := "123", table := some 2,
    date := 5, time := "19:00", numberOfGuests := 3, status := "pending", notes := none }

def db1C3 : DB := (createReservation dbC3 reqC3 40).2

def dbC3e : DB :=
  { menuItems := [], tables := [], orders := [], reservations := [], inventory := [] }

theorem reservation_auto_assign_min_capacity_witness :
    rC3.table.isSome = true
    ∧ isBadRequest (createReservation dbC3e reqC3 41).1 = true
    ∧ (createReservation dbC3e reqC3 41).2 = dbC3e := by
  have hB := (reservation_auto_assign_min_capacity dbC3e reqC3 41 "Ana" "123" "19:00" 5 3
      rfl (by decide) rfl (by decide) rfl (by decide) rfl (by decide) rfl (by decide)
      rfl).2 (fun t1 ht1 => absurd ht1 (List.not_mem_nil t1))
  refine ⟨?_, hB.1, hB.2⟩
  have hA := (reservation_auto_assign_min_capacity dbC3 reqC3 40 "Ana" "123" "19:00" 5 3
      rfl (by decide) rfl (by decide) rfl (by decide) rfl (by decide) rfl (by decide)
      rfl).1
  obtain ⟨t, _, htab, _, _, _, _, _⟩ := hA rC3 db1C3 (by decide)
  rw [htab]
  rfl

def tblC4 : Table := { id := 1, tableNumber := 1, capacity := 4, isAvailable := true }

def dbC4 : DB :=
  { menuItems := [], tables := [tblC4], orders := [],
    reservations := [{ id := 9, customerName := "Bob", phoneNumber := "555",
                       table := some 1, date := 5, time := "19:00",
                       numberOfGuests := 2, status := "pending", notes := none }],
    inventory := [] }

def reqC4 : ReservationReq :=
  { customerName := some "Eli", phoneNumber := some "321", date := some 5,
    time := some "19:00", numberOfGuests := some 2, tableId := some 1, notes := none }

theorem reservation_explicit_double_booking_conflict_witness :
    isBadRequest (createReservation dbC4 reqC4 41).1 = true
    ∧ (createReservation dbC4 reqC4 41).2 = dbC4 := by
  exact reservation_explicit_double_booking_conflict dbC4 reqC4 41 "Eli" "321" "19:00" 5 1 2
    tblC4 rfl (by decide) rfl (by decide) rfl (by decide) rfl (by decide) rfl (by decide)
    rfl (by decide) (by decide)

def tblC5 : Table := { id := 7, tableNumber := 7, capacity := 4, isAvailable := true }

def resvC5p : Reservation :=
  { id := 1, customerName := "Dan", phoneNumber := "999", table := some 7,
    date := 8, time := "18:00", numberOfGuests := 2, status := "pending", notes := none }

def dbC5p : DB :=
  { menuItems := [], tables := [tblC5], orders := [], reservations := [resvC5p],
    inventory := [] }

def tblC5u : Table := { tblC5 with isAvailable := false }

def resvC5c : Reservation := { resvC5p with status := "confirmed" }

def dbC5c : DB :=
  { menuItems := [], tables := [tblC5u], orders := [], reservations := [resvC5c],
    inventory := [] }

theorem reservation_status_table_availability_sync_witness :
    tableAvail (updateReservationStatus dbC5p 1 (some "confirmed")).2 7 = some false
    ∧ tableAvail (updateReservationStatus dbC5c 1 (some "cancelled")).2 7 = some true
    ∧ (deleteReservation dbC5p 1).2.tables = dbC5p.tables
    ∧ tableAvail (deleteReservation dbC5c 1).2 7 = some true := by
  have h1 := reservation_status_table_availability_sync dbC5p 1 "confirmed" resvC5p 7 tblC5
    (by decide) (by decide) (by decide)
  have h2 := reservation_status_table_availability_sync dbC5c 1 "cancelled" resvC5c 7 tblC5u
    (by decide) (by decide) (by decide)
  exact ⟨h1.1 rfl (by decide), h2.2.1 (Or.inl rfl) (by decide) (by decide),
         h1.2.2.1 (by decide), h2.2.2.2 (by decide)⟩

def mTea : MenuItem :=
  { id := 1, name := "Tea", description := none, price := 3, category := "Beverage",
    isAvailable := true, imageUrl := none }

def mCake : MenuItem :=
  { id := 2, name := "Cake", description := none, price := 5, category := "Dessert",
    isAvailable := false, imageUrl := none }

def tblC6 : Table := { id := 1, tableNumber := 1, capacity := 4, isAvailable := true }

def dbC6 : DB :=
  { menuItems := [mTea, mCake], tables := [tblC6], orders := [], reservations := [],
    inventory := [{ id := 1, itemName := "Tea", quantity := 9, unit := "pieces",
                    minStockLevel := 0, lastUpdated := 0 }] }

def preC6 : List OrderReqItem := [{ menuItemId := 1, quantity := 1 }]

def badC6 : OrderReqItem := { menuItemId := 2, quantity := 1 }

theorem placeOrder_unavailable_conflict_witness :
    placeOrder dbC6 (some 1) (preC6 ++ badC6 :: []) 0 50
      = (Except.error (Err.badRequest ("Cake is currently not available.")), dbC6) := by
  exact placeOrder_unavailable_conflict dbC6 1 preC6 [] badC6 mCake tblC6 0 50
    (by decide) (by decide) (by decide) (by decide)

theorem placeOrder_unavailable_notfound_counterexample :
    (placeOrder dbC6 (some 1)
        [{ menuItemId := 99, quantity := 1 }, { menuItemId := 2, quantity := 1 }] 0 50)
      = (Except.error (Err.notFound "Menu item with ID 99 not found."), dbC6)
    ∧ isBadRequest (placeOrder dbC6 (some 1)
        [{ menuItemId := 99, quantity := 1 }, { menuItemId := 2, quantity := 1 }] 0 50).1
      = false
    ∧ ((dbC6.menuItems.find? (fun m => m.id == 2)).map (fun m => m.isAvailable))
      = some false := by
  decide

def dbC7 : DB :=
  { menuItems := [{ id := 1, name := "Pizza", description := none, price := 2,
                    category := "Other", isAvailable := true, imageUrl := none }],
    tables := [{ id := 1, tableNumber := 1, capacity := 4, isAvailable := true }],
    orders := [], reservations := [],
    inventory := [{ id := 1, itemName := "Pizza", quantity := 3, unit := "pieces",
                    minStockLevel := 0, lastUpdated := 0 }] }

def itemsC7 : List OrderReqItem := [{ menuItemId := 1, quantity := 5 }]

theorem cancel_restock_clamp_counterexample :
    isOk (placeOrder dbC7 (some 1) itemsC7 0 100).1 = true
    ∧ isOk (updateOrderStatus (placeOrder dbC7 (some 1) itemsC7 0 100).2 100
        (some "cancelled") 1).1 = true
    ∧ qtyOf dbC7.inventory "Pizza" = some 3
    ∧ qtyOf (updateOrderStatus (placeOrder dbC7 (some 1) itemsC7 0 100).2 100
        (some "cancelled") 1).2.inventory "Pizza" = some 5 := by
  decide

def dbC7w : DB :=
  { menuItems := [{ id := 1, name := "Pizza", description := none, price := 2,
                    category := "Other", isAvailable := true, imageUrl := none }],
    tables := [{ id := 1, tableNumber := 1, capacity := 4, isAvailable := true }],
    orders := [], reservations := [],
    inventory := [{ id := 1, itemName := "Pizza", quantity := 10, unit := "pieces",
                    minStockLevel := 0, lastUpdated := 0 }] }

def ordC7 : Order :=
  { id := 100, table := 1, items := [{ menuItem := 1, quantity := 5, priceAtOrder := 2 }],
    totalAmount := 10, status := "pending", orderTime := 0, completionTime := none }

def db1C7 : DB := (placeOrder dbC7w (some 1) itemsC7 0 100).2

def db2C7 : DB := (updateOrderStatus db1C7 100 (some "cancelled") 1).2

theorem cancel_restores_inventory_when_stock_sufficient_witness :
    qtyOf db2C7.inventory "Pizza" = qtyOf dbC7w.inventory "Pizza" := by
  exact cancel_restores_inventory_when_stock_sufficient dbC7w (some 1) itemsC7 0 1 100
    ordC7 db1C7 ((updateOrderStatus db1C7 100 (some "cancelled") 1).1) db2C7
    (by decide) (by decide) rfl (by decide) "Pizza"

def dbC8 : DB :=
  { menuItems := [], tables := [],
    orders := [{ id := 1, table := 1, items := [], totalAmount := 0, status := "pending",
                 orderTime := 0, completionTime := none }],
    reservations := [], inventory := [] }

theorem orderStatus_nonenum_string_rejected_counterexample :
    updateOrderStatus dbC8 1 (some "archived") 5 = (Except.error Err.internal, dbC8)
    ∧ ((updateOrderStatus dbC8 1 (some "archived") 5).2.orders.map (fun o => o.status))
      = ["pending"] := by
  decide

def ordC8w : Order :=
  { id := 1, table := 1, items := [], totalAmount := 0, status := "completed",
    orderTime := 0, completionTime := some 3 }

def dbC8w : DB :=
  { menuItems := [], tables := [], orders := [ordC8w], reservations := [],
    inventory := [] }

theorem orderStatus_any_enum_transition_accepted_witness :
    isOk (updateOrderStatus dbC8w 1 (some "pending") 5).1 = true
    ∧ ((updateOrderStatus dbC8w 1 (some "pending") 5).2.orders.find?
        (fun o => o.id == 1)).map (fun o => o.status) = some "pending" := by
  exact orderStatus_any_enum_transition_accepted dbC8w 1 "pending" 5 ordC8w
    (by decide) (by decide)

def dbC9 : DB :=
  { menuItems := [],
    tables := [{ id := 3, tableNumber := 1, capacity := 4, isAvailable := true }],
    orders := [], reservations := [], inventory := [] }

def reqC9 : ReservationReq :=
  { customerName := some "Cara", phoneNumber := some "777", date := some 6,
    time := some "20:00", numberOfGuests := some 2, tableId := some 3, notes := none }

def rC9 : Reservation :=
  { id := 70, customerName := "Cara", phoneNumber := "777", table := some 3,
    date := 6, time := "20:00", numberOfGuests := 2, status := "pending", notes := none }

theorem reservation_created_table_never_null_witness :
    rC9.table.isSome = true ∧ rC9 ∈ (createReservation dbC9 reqC9 70).2.reservations := by
  exact reservation_created_table_never_null dbC9 reqC9 70 rC9
    ((createReservation dbC9 reqC9 70).2) (by decide)

def resvC10 : Reservation :=
  { id := 1, customerName := "Gil", phoneNumber := "111", table := some 9,
    date := 4, time := "17:00", numberOfGuests := 2, status := "pending", notes := none }

def dbC10 : DB :=
  { menuItems := [], tables := [], orders := [], reservations := [resvC10],
    inventory := [] }

theorem reservationStatus_update_missing_table_succeeds_witness :
    isOk (updateReservationStatus dbC10 1 (some "confirmed")).1 = true
    ∧ (updateReservationStatus dbC10 1 (some "confirmed")).2.tables = dbC10.tables
    ∧ (((updateReservationStatus dbC10 1 (some "confirmed")).2.reservations.find?
        (fun x => x.id == 1)).map (fun x => x.status)) = some "confirmed" := by
  exact reservationStatus_update_missing_table_succeeds dbC10 1 "confirmed" resvC10 9
    (by decide) (by decide) (by decide) (by decide)

end Restaurant
